import Mathlib

/-!
Verification development for the wine-cellar label-extraction reconciliation
pipeline: a shallow embedding of the validator (`validate_wine_data`), the
tiered matcher (`find_matching_wine`), the drink flow, the analyze flow and
the oracle-response fence stripping, together with theorems settling the
specification's claims about them.
-/

namespace WineCellar

/-- JSON-like values as produced by parsing the oracle response
(Python `json.loads`): null, booleans, integers, floats (modelled as exact
rationals), strings, arrays and objects (ordered key/value lists, keys
unique as in a Python dict). -/
inductive JValue where
  | null : JValue
  | bool : Bool → JValue
  | int : Int → JValue
  | float : Rat → JValue
  | str : String → JValue
  | list : List JValue → JValue
  | obj : List (String × JValue) → JValue

/-- A Python dict holding JSON data: ordered association list with unique
keys, as used for the analyzer results. -/
abbrev JObj := List (String × JValue)

/-- Python `data.get(k)`: the value stored at `k`, or `None` when the key is
absent. A stored JSON `null` also arrives as `None`, so both cases map to
`JValue.null`, exactly as the validator observes them. -/
def pyGet (data : JObj) (k : String) : JValue :=
  (data.lookup k).getD JValue.null

/-- Python dict assignment `d[k] = v`: replace the value at `k` keeping its
position, or append a new entry when the key is absent. -/
def jset (data : JObj) (k : String) (v : JValue) : JObj :=
  match data with
  | [] => [(k, v)]
  | (k', v') :: rest => if k' = k then (k, v) :: rest else (k', v') :: jset rest k v

/-- Python truthiness of a JSON value (`bool(x)` / `if x:`). -/
def pyTruthy : JValue → Bool
  | .null => false
  | .bool b => b
  | .int n => n != 0
  | .float q => q != 0
  | .str s => s != ""
  | .list xs => !xs.isEmpty
  | .obj xs => !xs.isEmpty

/-- Python `str(x)` for the scalar JSON values. Container rendering is
abbreviated (no claim depends on stringified containers), and the float
rendering uses the rational printer rather than Python's float repr. -/
def pyStr : JValue → String
  | .str s => s
  | .int n => toString n
  | .bool b => if b then "True" else "False"
  | .null => "None"
  | .float q => toString q
  | .list _ => "[...]"
  | .obj _ => "..."

/-- Truncation toward zero, as Python `int(float)` (`int(13.9) = 13`,
`int(-13.9) = -13`). `Int.tdiv` truncates toward zero. -/
def ratTrunc (q : Rat) : Int :=
  Int.tdiv q.num (Int.ofNat q.den)

/-- ASCII whitespace stripped by Python `int(str)` / `float(str)`. -/
def isAsciiWs (c : Char) : Bool :=
  c == ' ' || c == '\t' || c == '\n' || c == '\r' || c == '\x0b' || c == '\x0c'

/-- Strip leading and trailing whitespace from a character list. -/
def stripWs (cs : List Char) : List Char :=
  ((cs.dropWhile isAsciiWs).reverse.dropWhile isAsciiWs).reverse

/-- Digit run parser continuing after an initial digit: accepts further
digits, with single underscores allowed only between digits (Python numeric
literal rule used by `int(str)`). -/
def pdAux : List Char → Nat → Option Nat
  | [], acc => some acc
  | c :: rest, acc =>
    if c.isDigit then pdAux rest (acc * 10 + (c.toNat - 48))
    else if c == '_' then
      match rest with
      | [] => none
      | c' :: rest' =>
        if c'.isDigit then pdAux rest' ((acc * 10 + (c'.toNat - 48))) else none
    else none

/-- Nonempty digit run (underscores between digits allowed), or `none`. -/
def parseDigitsU : List Char → Option Nat
  | [] => none
  | c :: rest => if c.isDigit then pdAux rest (c.toNat - 48) else none

/-- Python `int(s)` on a string: strip whitespace, optional sign, digits. -/
def pyIntOfString (cs : List Char) : Option Int :=
  match stripWs cs with
  | '+' :: r => (parseDigitsU r).map Int.ofNat
  | '-' :: r => (parseDigitsU r).map (fun n => -(n : Int))
  | r => (parseDigitsU r).map Int.ofNat

/-- Python `int(x)` applied to a JSON value, as in the validator's
`try: int(value) except (ValueError, TypeError)` pattern: identity on
integers, truncation toward zero on floats, `True`/`False` to `1`/`0`
(Python bools are ints), decimal parse on strings, failure (`none`) on
`None`, lists and objects. -/
def pyInt : JValue → Option Int
  | .int n => some n
  | .bool b => some (if b then 1 else 0)
  | .float q => some (ratTrunc q)
  | .str s => pyIntOfString s.data
  | _ => none

/-- Greedy digit-run scanner for float parsing: returns the accumulated
value, the number of digits consumed, and the rest of the input. -/
def takeDigits : List Char → Nat → Nat → Nat × Nat × List Char
  | [], acc, cnt => (acc, cnt, [])
  | c :: rest, acc, cnt =>
    if c.isDigit then takeDigits rest (acc * 10 + (c.toNat - 48)) (cnt + 1)
    else (acc, cnt, c :: rest)

/-- Mantissa of a Python float string: `digits`, `digits.digits`,
`digits.` or `.digits` (at least one digit overall). -/
def parseMantissa (cs : List Char) : Option (Rat × List Char) :=
  let t1 := takeDigits cs 0 0
  match t1.2.2 with
  | '.' :: r2 =>
    let t2 := takeDigits r2 0 0
    if t1.2.1 + t2.2.1 == 0 then none
    else some ((t1.1 : Rat) + (t2.1 : Rat) / ((10 : Rat) ^ t2.2.1), t2.2.2)
  | _ => if t1.2.1 == 0 then none else some ((t1.1 : Rat), t1.2.2)

/-- Optional exponent part of a Python float string; the remainder after it
must be empty. -/
def applyExp (m : Rat) (cs : List Char) : Option Rat :=
  match cs with
  | [] => some m
  | c :: r1 =>
    if c == 'e' || c == 'E' then
      let sr : Bool × List Char :=
        match r1 with
        | '+' :: r => (true, r)
        | '-' :: r => (false, r)
        | r => (true, r)
      let t := takeDigits sr.2 0 0
      if t.2.1 == 0 then none
      else if !t.2.2.isEmpty then none
      else if sr.1 then some (m * (10 : Rat) ^ t.1) else some (m / (10 : Rat) ^ t.1)
    else none

/-- Python `float(s)` on a string: strip whitespace, optional sign,
decimal mantissa with optional exponent. The special values
`inf`/`nan` have no rational counterpart and are parsed as failure; in the
validator both roads lead to the same `null` result, since an infinite or
NaN value fails the `0 <= x <= 100` bound check in the source. -/
def pyFloatOfString (cs0 : List Char) : Option Rat :=
  let cs := stripWs cs0
  let sr : Bool × List Char :=
    match cs with
    | '+' :: r => (false, r)
    | '-' :: r => (true, r)
    | r => (false, r)
  match parseMantissa sr.2 with
  | none => none
  | some mr =>
    match applyExp mr.1 mr.2 with
    | none => none
    | some q => some (if sr.1 then -q else q)

/-- Python `float(x)` applied to a JSON value, as in the validator's
alcohol-percentage pattern. -/
def pyFloat : JValue → Option Rat
  | .float q => some q
  | .int n => some (n : Rat)
  | .bool b => some (if b then 1 else 0)
  | .str s => pyFloatOfString s.data
  | _ => none

/-- The bounded-integer cleaning pattern repeated in `validate_wine_data`
for `vintage`, the drinking-window pair and `score`: `None` stays null,
otherwise coerce with `int(...)` and keep the value only inside
`[lo, hi]`. -/
def cleanBoundedInt (v : JValue) (lo hi : Int) : JValue :=
  match v with
  | .null => .null
  | v =>
    match pyInt v with
    | some n => if lo ≤ n ∧ n ≤ hi then .int n else .null
    | none => .null

/-- The alcohol-percentage cleaning in `validate_wine_data`: `None` stays
null, otherwise coerce with `float(...)` and keep the value only inside
`[0, 100]`. -/
def cleanFloat (v : JValue) : JValue :=
  match v with
  | .null => .null
  | v =>
    match pyFloat v with
    | some q => if 0 ≤ q ∧ q ≤ 100 then .float q else .null
    | none => .null

/-- The six valid styles of `validate_wine_data`. -/
def validStyles : List String :=
  ["Red", "White", "Rosé", "Sparkling", "Dessert", "Fortified"]

/-- `style if style in valid_styles else None`: Python `in` compares with
`==`, which never identifies a non-string with a string. -/
def cleanStyle (v : JValue) : JValue :=
  match v with
  | .str s => if validStyles.contains s then .str s else .null
  | _ => .null

/-- `value if value else None` for the optional string fields. -/
def cleanOptStr (v : JValue) : JValue :=
  if pyTruthy v then v else .null

/-- `data.get("name") or "Unknown Wine"`. -/
def cleanName (v : JValue) : JValue :=
  if pyTruthy v then v else .str "Unknown Wine"

/-- `[str(g) for g in xs if g] if isinstance(xs, list) else []` for
`grape_varieties` and `clarification_questions`. -/
def cleanStrList (v : JValue) : JValue :=
  match v with
  | .list xs => .list ((xs.filter pyTruthy).map (fun g => .str (pyStr g)))
  | _ => .list []

/-- `notes if isinstance(notes, dict) else {}` for `tasting_notes`. -/
def cleanNotes (v : JValue) : JValue :=
  match v with
  | .obj xs => .obj xs
  | _ => .obj []

/-- Shallow embedding of `wine_analyzer.validate_wine_data`: pass error
payloads through unchanged (membership test `"error" in data`), otherwise
build the cleaned record field by field, in the source's insertion
order. -/
def validate_wine_data (data : JObj) : JObj :=
  if (data.lookup "error").isSome then data
  else
    [("name", cleanName (pyGet data "name")),
     ("producer", cleanOptStr (pyGet data "producer")),
     ("country", cleanOptStr (pyGet data "country")),
     ("region", cleanOptStr (pyGet data "region")),
     ("appellation", cleanOptStr (pyGet data "appellation")),
     ("description", cleanOptStr (pyGet data "description")),
     ("style", cleanStyle (pyGet data "style")),
     ("vintage", cleanBoundedInt (pyGet data "vintage") 1800 2100),
     ("drinking_window_start", cleanBoundedInt (pyGet data "drinking_window_start") 1900 2200),
     ("drinking_window_end", cleanBoundedInt (pyGet data "drinking_window_end") 1900 2200),
     ("score", cleanBoundedInt (pyGet data "score") 0 100),
     ("alcohol_percentage", cleanFloat (pyGet data "alcohol_percentage")),
     ("grape_varieties", cleanStrList (pyGet data "grape_varieties")),
     ("tasting_notes", cleanNotes (pyGet data "tasting_notes")),
     ("needs_clarification", .bool (pyTruthy (pyGet data "needs_clarification"))),
     ("clarification_questions", cleanStrList (pyGet data "clarification_questions"))]

/-- A row of the `wines` table (`database.init_db` schema), with `quantity`
defaulting to 1 as in the schema and `created_at` modelled as a
monotone creation stamp. JSON-text columns (`grape_varieties`,
`tasting_notes`) are held in their parsed form, which `row_to_dict`
round-trips. -/
structure Wine where
  id : Int
  name : String
  producer : Option String := none
  vintage : Option Int := none
  country : Option String := none
  region : Option String := none
  appellation : Option String := none
  style : Option String := none
  grape_varieties : List String := []
  alcohol_percentage : Option Rat := none
  quantity : Int := 1
  drinking_window_start : Option Int := none
  drinking_window_end : Option Int := none
  score : Option Int := none
  description : Option String := none
  tasting_notes : JValue := .obj []
  image_path : Option String := none
  cloudinary_id : Option String := none
  created_at : Nat := 0

/-- ASCII lowercasing of a character list, as SQLite's `LOWER`. -/
def lowerL (cs : List Char) : List Char :=
  cs.map Char.toLower

/-- `LOWER(a) = LOWER(b)` on two strings. -/
def lowEq (a b : String) : Bool :=
  lowerL a.data == lowerL b.data

/-- `LOWER(producer) = LOWER(?)` where a NULL column never compares
equal. -/
def optLowEq (col : Option String) (arg : Option String) : Bool :=
  match col, arg with
  | some a, some b => lowEq a b
  | _, _ => false

/-- SQL `LIKE` matching (wildcards `%` and `_`, case-insensitive), with
explicit fuel; fuel `pattern.length + text.length + 1` always suffices
since every step consumes a pattern or text character. -/
def likeMatchFuel : Nat → List Char → List Char → Bool
  | 0, _, _ => false
  | _ + 1, [], t => t.isEmpty
  | fuel + 1, c :: ps, t =>
    if c == '%' then
      likeMatchFuel fuel ps t ||
        (match t with
         | [] => false
         | _ :: ts => likeMatchFuel fuel (c :: ps) ts)
    else
      match t with
      | [] => false
      | d :: ts =>
        if c == '_' then likeMatchFuel fuel ps ts
        else (Char.toLower c == Char.toLower d) && likeMatchFuel fuel ps ts

/-- SQL `LIKE`: does `text` match `pattern`? -/
def likeMatch (pattern text : List Char) : Bool :=
  likeMatchFuel (pattern.length + text.length + 1) pattern text

/-- The fuzzy-query ranking `CASE WHEN vintage = ? THEN 0 ELSE 1 END`
(a NULL stored vintage never compares equal). -/
def fuzzyRank (vkey : Int) (w : Wine) : Nat :=
  if w.vintage == some vkey then 0 else 1

/-- Is `b` strictly better placed than `a` under
`ORDER BY rank ASC, created_at DESC`? -/
def betterRow (vkey : Int) (a b : Wine) : Bool :=
  decide (fuzzyRank vkey b < fuzzyRank vkey a) ||
    ((fuzzyRank vkey b == fuzzyRank vkey a) && decide (a.created_at < b.created_at))

/-- `ORDER BY rank ASC, created_at DESC LIMIT 1` over the matching rows:
the best-ranked row, keeping the earlier row on full ties (SQL leaves
those ties unspecified; the inventory order is the model's choice). -/
def selectBest (vkey : Int) : List Wine → Option Wine
  | [] => none
  | w :: ws => some (ws.foldl (fun best x => if betterRow vkey best x then x else best) w)

/-- The tier-4 query of `find_matching_wine`:
`SELECT * FROM wines WHERE LOWER(name) LIKE LOWER('%'+name+'%')
ORDER BY CASE WHEN vintage = (vintage or 0) THEN 0 ELSE 1 END,
created_at DESC LIMIT 1`. For integers Python's `vintage or 0` equals
`vintage.getD 0` (a zero vintage is falsy and yields 0, which is 0
itself). -/
def fuzzy_query (inv : List Wine) (name : String) (vintage : Option Int) : Option Wine :=
  let pat := lowerL ("%" ++ name ++ "%").data
  let vkey : Int := vintage.getD 0
  selectBest vkey (inv.filter (fun w => likeMatch pat (lowerL w.name.data)))

/-- Shallow embedding of `database.find_matching_wine`. Each exact-match
query is a `fetchone` over the table in insertion order; the guards are
Python truthiness (`if producer and vintage:` / `if vintage:` /
`if producer:`), so an empty producer or a zero vintage skips the exact
tiers. -/
def find_matching_wine (inv : List Wine) (name : String)
    (producer : Option String) (vintage : Option Int) : Option Wine :=
  let producerTruthy : Bool := match producer with | some s => s != "" | none => false
  let vintageTruthy : Bool := match vintage with | some n => n != 0 | none => false
  let step4 := fuzzy_query inv name vintage
  let step3 :=
    if producerTruthy then
      match inv.find? (fun w => lowEq w.name name && optLowEq w.producer producer) with
      | some r => some r
      | none => step4
    else step4
  let step2 :=
    if vintageTruthy then
      match inv.find? (fun w => lowEq w.name name && w.vintage == vintage) with
      | some r => some r
      | none => step3
    else step3
  if producerTruthy && vintageTruthy then
    match inv.find? (fun w =>
        lowEq w.name name && optLowEq w.producer producer && w.vintage == vintage) with
    | some r => some r
    | none => step2
  else step2

/-- Truthiness normalization of an optional string argument: the value when
it is supplied and non-empty, `none` otherwise. -/
def truthyOptStr : Option String → Option String
  | some s => if s = "" then none else some s
  | none => none

/-- Truthiness normalization of an optional integer argument: the value
when it is supplied and non-zero, `none` otherwise. -/
def truthyOptInt : Option Int → Option Int
  | some n => if n = 0 then none else some n
  | none => none

/-- The claim's matcher, written from the claim's own words: tier 1 only
when both producer and vintage are supplied, tier 2 only when vintage is
supplied, tier 3 only when producer is supplied, and a fuzzy tier over the
records whose name contains the supplied name as a case-insensitive
substring, ranked by vintage-equality with the supplied vintage first and
most-recent creation second. -/
def substrCI (needle hay : String) : Bool :=
  (lowerL hay.data).tails.any (fun t => (lowerL needle.data).isPrefixOf t)

/-- The claim's fuzzy rank: vintage-equality with the supplied vintage;
with no vintage supplied no record is vintage-equal. -/
def claimRank (vintage : Option Int) (w : Wine) : Nat :=
  match vintage with
  | some v => if w.vintage == some v then 0 else 1
  | none => 1

/-- Strictly-better comparison for the claim's fuzzy ranking. -/
def betterRowClaim (vintage : Option Int) (a b : Wine) : Bool :=
  decide (claimRank vintage b < claimRank vintage a) ||
    ((claimRank vintage b == claimRank vintage a) && decide (a.created_at < b.created_at))

/-- Best candidate under the claim's fuzzy ranking (ties broken
arbitrarily; the model keeps the earlier record). -/
def selectBestClaim (vintage : Option Int) : List Wine → Option Wine
  | [] => none
  | w :: ws => some (ws.foldl (fun best x => if betterRowClaim vintage best x then x else best) w)

/-- `findMatch` as claim C1 literally states it ("supplied" read as
present, substring containment, vintage-equality ranking). -/
def findMatch_claim (inv : List Wine) (name : String)
    (producer : Option String) (vintage : Option Int) : Option Wine :=
  let t1 : Option Wine :=
    match producer, vintage with
    | some p, some v =>
        inv.find? (fun w => lowEq w.name name && optLowEq w.producer (some p) && w.vintage == some v)
    | _, _ => none
  let t2 : Option Wine :=
    match vintage with
    | some v => inv.find? (fun w => lowEq w.name name && w.vintage == some v)
    | none => none
  let t3 : Option Wine :=
    match producer with
    | some p => inv.find? (fun w => lowEq w.name name && optLowEq w.producer (some p))
    | none => none
  let t4 : Option Wine := selectBestClaim vintage (inv.filter (fun w => substrCI name w.name))
  ((t1.orElse (fun _ => t2)).orElse (fun _ => t3)).orElse (fun _ => t4)

/-- The amended claim's matcher: as the claim states it, except that a tier
counts its arguments as supplied only when they are truthy (non-empty
producer, non-zero vintage), and the fuzzy tier uses the source's SQL
`LIKE '%'+name+'%'` pattern (wildcards active) ranked by vintage-equality
against the supplied vintage with `0` standing in when the vintage is
absent or zero. -/
def findMatch_amended (inv : List Wine) (name : String)
    (producer : Option String) (vintage : Option Int) : Option Wine :=
  let t1 : Option Wine :=
    match truthyOptStr producer, truthyOptInt vintage with
    | some p, some v =>
        inv.find? (fun w => lowEq w.name name && optLowEq w.producer (some p) && w.vintage == some v)
    | _, _ => none
  let t2 : Option Wine :=
    match truthyOptInt vintage with
    | some v => inv.find? (fun w => lowEq w.name name && w.vintage == some v)
    | none => none
  let t3 : Option Wine :=
    match truthyOptStr producer with
    | some p => inv.find? (fun w => lowEq w.name name && optLowEq w.producer (some p))
    | none => none
  ((t1.orElse (fun _ => t2)).orElse (fun _ => t3)).orElse (fun _ => fuzzy_query inv name vintage)

/-- Shallow embedding of `database.increment_wine_quantity`:
`UPDATE wines SET quantity = quantity + ? WHERE id = ?` (one atomic
arithmetic update; the `updated_at` timestamp touch is not modelled). -/
def increment_wine_quantity (db : List Wine) (id : Int) (amount : Int) : List Wine :=
  db.map (fun w => if w.id == id then { w with quantity := w.quantity + amount } else w)

/-- Shallow embedding of `database.get_wine`:
`SELECT * FROM wines WHERE id = ?` with `fetchone`. -/
def get_wine (db : List Wine) (id : Int) : Option Wine :=
  db.find? (fun w => w.id == id)

/-- The `name` argument the flows bind into `find_matching_wine`'s SQL:
a JSON string is passed as text; `null` (and the non-text values no flow
produces) make every `LOWER(name) = …` / `LIKE` comparison NULL, so the
query returns no row, modelled as no match. -/
def argName : JValue → Option String
  | .str s => some s
  | _ => none

/-- The `producer` argument bound into the SQL, same conventions. -/
def argProducer : JValue → Option String
  | .str s => some s
  | _ => none

/-- The `vintage` argument bound into the SQL, same conventions. -/
def argVintage : JValue → Option Int
  | .int n => some n
  | _ => none

/-- The match step both flows run on an analyzer-result dict:
`find_matching_wine(name=r.get("name"), producer=r.get("producer"),
vintage=r.get("vintage"))`. -/
def identified_match (db : List Wine) (result : JObj) : Option Wine :=
  match argName (pyGet result "name") with
  | some n => find_matching_wine db n (argProducer (pyGet result "producer"))
      (argVintage (pyGet result "vintage"))
  | none => none

/-- The observable outcomes of `app.drink_wine` after the image guards:
the identify error surfaced as a 400, the not-found 404 carrying the raw
identification, the "no bottles left" 400 carrying the record, and the
success payload with the updated record and the before/after
quantities. `internalError` marks the unreachable re-fetch failure (the
matched id always exists), where the Python would raise. -/
inductive DrinkOutcome where
  | badRequest : JObj → DrinkOutcome
  | notFound : JObj → DrinkOutcome
  | noBottles : Wine → DrinkOutcome
  | drank : String → Wine → Int → Int → DrinkOutcome
  | internalError : DrinkOutcome

/-- Shallow embedding of `app.drink_wine` from the identify result on:
surface an identify error without touching the inventory, otherwise match,
report not-found with the raw identification, refuse when no bottles are
left, else decrement by one and report previous/new quantities. Returns
the response together with the resulting inventory. -/
def drink_flow (db : List Wine) (result : JObj) : DrinkOutcome × List Wine :=
  if pyTruthy (pyGet result "error") then (.badRequest result, db)
  else
    match identified_match db result with
    | none => (.notFound result, db)
    | some existing =>
      if existing.quantity ≤ 0 then (.noBottles existing, db)
      else
        let db' := increment_wine_quantity db existing.id (-1)
        match get_wine db' existing.id with
        | some updated =>
            (.drank ("Enjoyed a bottle of " ++ existing.name ++ "!") updated
              existing.quantity updated.quantity, db')
        | none => (.internalError, db')

/-- `app.allowed_file`: a dot in the name and the lowercased extension
after the last dot among the allowed ones. -/
def chunksAfterDot (cs : List Char) : Option (List Char) :=
  if cs.contains '.' then some ((cs.reverse.takeWhile (fun c => c != '.')).reverse) else none

/-- The allowed upload extensions. -/
def allowedExtensions : List String :=
  ["png", "jpg", "jpeg", "gif", "webp"]

/-- Shallow embedding of `app.allowed_file`. -/
def allowed_file (filename : String) : Bool :=
  match chunksAfterDot filename.data with
  | some ext => allowedExtensions.contains (String.mk (lowerL ext))
  | none => false

/-- The extension `save_uploaded_file` derives:
`filename.rsplit(".", 1)[1].lower() if "." in filename else "jpg"`. -/
def extOf (filename : String) : String :=
  match chunksAfterDot filename.data with
  | some ext => String.mk (lowerL ext)
  | none => "jpg"

/-- Uploaded file contents, modelled as a byte list. -/
abbrev Bytes := List Nat

/-- Shallow embedding of `app.save_uploaded_file` with the local-disk
backend (the image store is a configuration-selected collaborator; the
Cloudinary branch is the remote alternative and returns a public id).
`fresh` stands for the generated `uuid4()` stem. Returns the image store
after the save, the reference path and the (absent) cloudinary id. -/
def save_uploaded_file (store : List (String × Bytes)) (content : Bytes)
    (filename fresh : String) : List (String × Bytes) × Option String × Option String :=
  if content.isEmpty || filename == "" then (store, none, none)
  else if !allowed_file filename then (store, none, none)
  else
    let newName := fresh ++ "." ++ extOf filename
    (store ++ [(newName, content)], some ("uploads/" ++ newName), none)

/-- The image-reference attachment of `app.analyze_image`:
`if image_url: cleaned["image_path"] = image_url;
 if cloudinary_id: cleaned["cloudinary_id"] = cloudinary_id`. -/
def attachImage (cleaned : JObj) (url cid : Option String) : JObj :=
  match url with
  | some u =>
    if u = "" then cleaned
    else
      match cid with
      | some c =>
        if c = "" then jset cleaned "image_path" (.str u)
        else jset (jset cleaned "image_path" (.str u)) "cloudinary_id" (.str c)
      | none => jset cleaned "image_path" (.str u)
  | none => cleaned

/-- The duplicate-check gate of `app.analyze_image`:
`if not cleaned.get("error") and not cleaned.get("needs_clarification")` —
Python truthiness on both values. -/
def matchGate (cleaned : JObj) : Bool :=
  !pyTruthy (pyGet cleaned "error") && !pyTruthy (pyGet cleaned "needs_clarification")

/-- JSON rendering of a string column that may be NULL. -/
def jOptStr : Option String → JValue
  | some s => .str s
  | none => .null

/-- JSON rendering of an integer column that may be NULL. -/
def jOptInt : Option Int → JValue
  | some n => .int n
  | none => .null

/-- JSON rendering of a float column that may be NULL. -/
def jOptFloat : Option Rat → JValue
  | some q => .float q
  | none => .null

/-- The dict `row_to_dict` produces for a row, as attached to the analyze
result under `existing_wine`. -/
def wineToJ (w : Wine) : JValue :=
  .obj [("id", .int w.id),
        ("name", .str w.name),
        ("producer", jOptStr w.producer),
        ("vintage", jOptInt w.vintage),
        ("country", jOptStr w.country),
        ("region", jOptStr w.region),
        ("appellation", jOptStr w.appellation),
        ("style", jOptStr w.style),
        ("grape_varieties", .list (w.grape_varieties.map JValue.str)),
        ("alcohol_percentage", jOptFloat w.alcohol_percentage),
        ("quantity", .int w.quantity),
        ("drinking_window_start", jOptInt w.drinking_window_start),
        ("drinking_window_end", jOptInt w.drinking_window_end),
        ("score", jOptInt w.score),
        ("description", jOptStr w.description),
        ("tasting_notes", w.tasting_notes),
        ("image_path", jOptStr w.image_path),
        ("cloudinary_id", jOptStr w.cloudinary_id),
        ("created_at", .int (w.created_at : Int))]

/-- The analyze result before the duplicate check: the validated data with
the saved image's reference attached (`app.analyze_image` lines up to the
duplicate lookup). -/
def analyzePre (store : List (String × Bytes)) (content : Bytes)
    (filename fresh : String) (raw : JObj) : JObj :=
  attachImage (validate_wine_data raw)
    (save_uploaded_file store content filename fresh).2.1
    (save_uploaded_file store content filename fresh).2.2

/-- Shallow embedding of `app.analyze_image` from the oracle result on:
validate, save the uploaded file and attach its reference, then — exactly
when neither `cleaned.get("error")` nor
`cleaned.get("needs_clarification")` is truthy — look for a matching
inventory record and annotate the result with `existing_wine` and
`is_duplicate`. Returns the response payload and the image store after the
flow. -/
def analyze_flow (db : List Wine) (store : List (String × Bytes)) (content : Bytes)
    (filename fresh : String) (raw : JObj) : JObj × List (String × Bytes) :=
  let withImg := analyzePre store content filename fresh raw
  let saved := save_uploaded_file store content filename fresh
  if matchGate withImg then
    match identified_match db withImg with
    | some w =>
        (jset (jset withImg "existing_wine" (wineToJ w)) "is_duplicate" (.bool true), saved.1)
    | none => (withImg, saved.1)
  else (withImg, saved.1)

/-- The JSON payload of a direct `POST /api/wines` request, carrying the
columns `database.create_wine` inserts, with each field at the column's
natural type. Values are inserted verbatim — the route checks only that a
name is present. -/
structure CreatePayload where
  name : String
  producer : Option String := none
  vintage : Option Int := none
  country : Option String := none
  region : Option String := none
  appellation : Option String := none
  style : Option String := none
  grape_varieties : List String := []
  alcohol_percentage : Option Rat := none
  quantity : Option Int := none
  drinking_window_start : Option Int := none
  drinking_window_end : Option Int := none
  score : Option Int := none
  description : Option String := none
  tasting_notes : JValue := .obj []
  image_path : Option String := none
  cloudinary_id : Option String := none

/-- Shallow embedding of `database.create_wine`: insert the payload's
fields verbatim (no validation or bounds checking), with
`data.get("quantity", 1)` defaulting the quantity. `nextId` and `stamp`
stand for the autoincrement id and the `created_at` timestamp. -/
def create_wine (db : List Wine) (nextId : Int) (stamp : Nat) (p : CreatePayload) : List Wine :=
  db ++ [{ id := nextId
           name := p.name
           producer := p.producer
           vintage := p.vintage
           country := p.country
           region := p.region
           appellation := p.appellation
           style := p.style
           grape_varieties := p.grape_varieties
           alcohol_percentage := p.alcohol_percentage
           quantity := p.quantity.getD 1
           drinking_window_start := p.drinking_window_start
           drinking_window_end := p.drinking_window_end
           score := p.score
           description := p.description
           tasting_notes := p.tasting_notes
           image_path := p.image_path
           cloudinary_id := p.cloudinary_id
           created_at := stamp }]

/-- Shallow embedding of the `POST /api/wines` route (`app.create_wine`):
reject only a missing/empty name (`if not data.get("name")`), then insert
the payload verbatim. -/
def api_create_wine (db : List Wine) (nextId : Int) (stamp : Nat)
    (p : CreatePayload) : Option (List Wine) :=
  if p.name = "" then none else some (create_wine db nextId stamp p)

/-- Column-level invariant the spec states for bounded integer columns:
NULL or within `[lo, hi]`. -/
def intColOk (v : Option Int) (lo hi : Int) : Prop :=
  v = none ∨ ∃ n, v = some n ∧ lo ≤ n ∧ n ≤ hi

/-- The spec's invariant for the `style` column: NULL or one of the six
enumerated styles. -/
def styleColOk (v : Option String) : Prop :=
  v = none ∨ ∃ s, v = some s ∧ s ∈ validStyles

/-- Field-level invariant for a bounded integer field of a validated
record: null or an integer within `[lo, hi]`. -/
def intFieldOk (v : JValue) (lo hi : Int) : Prop :=
  v = .null ∨ ∃ n, v = .int n ∧ lo ≤ n ∧ n ≤ hi

/-- Field-level invariant for the alcohol percentage: null or a float
within `[0, 100]`. -/
def floatFieldOk (v : JValue) : Prop :=
  v = .null ∨ ∃ q, v = .float q ∧ 0 ≤ q ∧ q ≤ 100

/-- Field-level invariant for the style: null or one of the six enumerated
values. -/
def styleFieldOk (v : JValue) : Prop :=
  v = .null ∨ ∃ s, v = .str s ∧ s ∈ validStyles

/-- The fence characters, as a character list. -/
def fenceMarker : List Char :=
  "```".data

/-- Python `line.startswith("```")`. -/
def startsFence (line : List Char) : Bool :=
  fenceMarker.isPrefixOf line

/-- Python `s.split("\n")` on a character list: the list of lines, where
the empty text yields one empty line. -/
def splitNL : List Char → List (List Char)
  | [] => [[]]
  | c :: rest =>
    if c = '\n' then [] :: splitNL rest
    else
      match splitNL rest with
      | [] => [[c]]
      | l :: ls => (c :: l) :: ls

/-- Python `"\n".join(lines)`. -/
def joinNL : List (List Char) → List Char
  | [] => []
  | [l] => l
  | l :: ls => l ++ '\n' :: joinNL ls

/-- The fence-collecting loop of `analyze_wine_image` /
`identify_wine_image`: skip until the first fence line (`in_json` off,
`continue` on the fence), then collect lines until the next fence line
(`break`). -/
def collectFenced : List (List Char) → Bool → List (List Char)
  | [], _ => []
  | l :: ls, false =>
    if startsFence l then collectFenced ls true else collectFenced ls false
  | l :: ls, true =>
    if startsFence l then [] else l :: collectFenced ls true

/-- The fence-stripping step of the extraction client: when the response
text starts with a fence, keep only the lines strictly between the first
two fence lines and rejoin them; otherwise leave the text as is. The text
is modelled as its character list. -/
def stripFences (s : List Char) : List Char :=
  if startsFence s then joinNL (collectFenced (splitNL s) false) else s

/-- The spec's example inventory record:
`{name: "Barolo Riserva", producer: "Gaja", vintage: 2015}` with two
bottles. -/
def baroloWine : Wine :=
  { id := 1, name := "Barolo Riserva", producer := some "Gaja", vintage := some 2015,
    quantity := 2, created_at := 0 }

/-- A record with a zero vintage (storable through direct creation, and
passed around raw by the drink flow's identification), named `a`. -/
def cxR1 : Wine :=
  { id := 1, name := "a", vintage := some 0, created_at := 0 }

/-- A later-created record whose name also contains `a`. -/
def cxR2 : Wine :=
  { id := 2, name := "ab", vintage := some 0, created_at := 5 }

/-- A record whose name contains no percent sign. -/
def cxRx : Wine :=
  { id := 1, name := "x" }

/-- An early record with vintage 0. -/
def cxRA : Wine :=
  { id := 1, name := "wine a", vintage := some 0, created_at := 0 }

/-- A later record with an ordinary vintage. -/
def cxRB : Wine :=
  { id := 2, name := "wine b", vintage := some 1999, created_at := 5 }

/-- A direct-creation payload carrying an out-of-enumeration style and an
out-of-range vintage, as any caller of `POST /api/wines` may send. -/
def badPayload : CreatePayload :=
  { name := "X", style := some "Orange", vintage := some 99999 }

/-- The row `create_wine` stores for `badPayload`. -/
def badStored : Wine :=
  { id := 1, name := "X", style := some "Orange", vintage := some 99999,
    quantity := 1, created_at := 0 }

/-- An oracle result carrying an `error` key with a falsy (empty) value
alongside a name — a payload `validate_wine_data` passes through
unchanged. -/
def errEmptyRaw : JObj :=
  [("error", JValue.str ""), ("name", JValue.str "Barolo")]

/-- An oracle analysis result identifying the spec's example bottle. -/
def dupRaw : JObj :=
  [("name", JValue.str "Barolo Riserva"), ("producer", JValue.str "Gaja"),
   ("vintage", JValue.int 2015)]

/-- The domain-error oracle result for a photo that is not a wine label. -/
def notLabelRaw : JObj :=
  [("error", JValue.str "Not a wine label image")]

theorem find_matching_wine_eq_amended (inv : List Wine) (n : String)
    (p : Option String) (v : Option Int) :
    find_matching_wine inv n p v = findMatch_amended inv n p v := by
  unfold find_matching_wine findMatch_amended
  rcases p with _ | s <;> rcases v with _ | k
  · simp [truthyOptStr, truthyOptInt, Option.orElse]
  · by_cases hk : k = 0
    · subst hk
      simp [truthyOptStr, truthyOptInt, Option.orElse]
    · simp only [truthyOptStr, truthyOptInt, if_neg hk, bne_iff_ne, ne_eq, hk,
        not_false_eq_true, if_true, Bool.and_false, Bool.false_and, Bool.if_false_left,
        Bool.and_true, Bool.true_and]
      cases h2 : inv.find? (fun w => lowEq w.name n && w.vintage == some k) <;>
        simp [Option.orElse, h2]
  · by_cases hs : s = ""
    · subst hs
      simp [truthyOptStr, truthyOptInt, Option.orElse]
    · simp only [truthyOptStr, truthyOptInt, if_neg hs, bne_iff_ne, ne_eq, hs,
        not_false_eq_true, if_true, Bool.and_false, Bool.false_and, Bool.if_false_left,
        Bool.and_true, Bool.true_and]
      cases h3 : inv.find? (fun w => lowEq w.name n && optLowEq w.producer (some s)) <;>
        simp [Option.orElse, h3]
  · by_cases hs : s = "" <;> by_cases hk : k = 0
    · subst hs; subst hk
      simp [truthyOptStr, truthyOptInt, Option.orElse]
    · subst hs
      simp only [truthyOptStr, truthyOptInt, if_neg hk, bne_iff_ne, ne_eq, hk,
        not_false_eq_true, if_true, if_pos rfl, Bool.false_and, Bool.and_false]
      cases h2 : inv.find? (fun w => lowEq w.name n && w.vintage == some k) <;>
        simp [Option.orElse, h2]
    · subst hk
      simp only [truthyOptStr, truthyOptInt, if_neg hs, bne_iff_ne, ne_eq, hs,
        not_false_eq_true, if_true, if_pos rfl, Bool.and_false, Bool.false_and]
      cases h3 : inv.find? (fun w => lowEq w.name n && optLowEq w.producer (some s)) <;>
        simp [Option.orElse, h3]
    · simp only [truthyOptStr, truthyOptInt, if_neg hs, if_neg hk, bne_iff_ne, ne_eq,
        hs, hk, not_false_eq_true, if_true, Bool.and_self, Bool.true_and, Bool.and_true]
      cases h1 : inv.find? (fun w =>
          lowEq w.name n && optLowEq w.producer (some s) && w.vintage == some k) <;>
        cases h2 : inv.find? (fun w => lowEq w.name n && w.vintage == some k) <;>
          cases h3 : inv.find? (fun w => lowEq w.name n && optLowEq w.producer (some s)) <;>
            simp [Option.orElse, h1, h2, h3] <;>
              (intro hcon; exact absurd (hcon hs) hk)

/-- C1 (amended): `find_matching_wine` evaluates its four tiers in strict
priority order with each tier attempted only when its arguments are
supplied and truthy (non-empty producer, non-zero vintage), the fuzzy tier
matching names against the SQL pattern `'%'+name+'%'` and ranking by
equality with the supplied vintage (0 standing in when the vintage is
absent or zero) first and most-recent creation second; on the spec's
one-record inventory the three example calls return the record via tier 1,
the record via tier 4, and none. -/
theorem C1_tiered_matching :
    (∀ (inv : List Wine) (n : String) (p : Option String) (v : Option Int),
        find_matching_wine inv n p v = findMatch_amended inv n p v) ∧
    find_matching_wine [baroloWine] "barolo riserva" (some "gaja") (some 2015) = some baroloWine ∧
    find_matching_wine [baroloWine] "Barolo" none none = some baroloWine ∧
    find_matching_wine [baroloWine] "Chianti" none none = none :=
  ⟨find_matching_wine_eq_amended, rfl, rfl, rfl⟩

theorem orElse_eq_some' {α : Type} {o : Option α} {f : Unit → Option α} {b : α}
    (h : o.orElse f = some b) : o = some b ∨ f () = some b := by
  cases o with
  | none => right; simpa [Option.orElse] using h
  | some a => left; simpa [Option.orElse] using h

theorem foldl_pick_mem (f : Wine → Wine → Bool) :
    ∀ (l : List Wine) (acc : Wine),
      l.foldl (fun best x => if f best x then x else best) acc ∈ acc :: l := by
  intro l
  induction l with
  | nil => intro acc; simp
  | cons c t ih =>
    intro acc
    simp only [List.foldl_cons]
    rcases List.mem_cons.mp (ih (if f acc c then c else acc)) with h | h
    · rw [h]
      by_cases hf : f acc c
      · rw [if_pos hf]
        exact List.mem_cons_of_mem _ (List.mem_cons_self _ _)
      · rw [if_neg hf]
        exact List.mem_cons_self _ _
    · exact List.mem_cons_of_mem _ (List.mem_cons_of_mem _ h)

theorem selectBest_mem {vkey : Int} {l : List Wine} {w : Wine}
    (h : selectBest vkey l = some w) : w ∈ l := by
  cases l with
  | nil => simp [selectBest] at h
  | cons a t =>
    simp only [selectBest, Option.some.injEq] at h
    rw [← h]
    exact foldl_pick_mem (betterRow vkey) t a

theorem fuzzy_query_mem {inv : List Wine} {n : String} {v : Option Int} {w : Wine}
    (h : fuzzy_query inv n v = some w) : w ∈ inv := by
  simp only [fuzzy_query] at h
  exact List.mem_of_mem_filter (selectBest_mem h)

theorem findMatch_amended_mem {inv : List Wine} {n : String} {p : Option String}
    {v : Option Int} {w : Wine} (h : findMatch_amended inv n p v = some w) : w ∈ inv := by
  unfold findMatch_amended at h
  rcases orElse_eq_some' h with h' | h4
  · rcases orElse_eq_some' h' with h'' | h3
    · rcases orElse_eq_some' h'' with h1 | h2
      · rcases htp : truthyOptStr p with _ | p' <;> rw [htp] at h1 <;>
          rcases htv : truthyOptInt v with _ | v' <;> rw [htv] at h1
        · cases h1
        · cases h1
        · cases h1
        · exact List.mem_of_find?_eq_some h1
      · rcases htv : truthyOptInt v with _ | v' <;> rw [htv] at h2
        · cases h2
        · exact List.mem_of_find?_eq_some h2
    · rcases htp : truthyOptStr p with _ | p' <;> rw [htp] at h3
      · cases h3
      · exact List.mem_of_find?_eq_some h3
  · exact fuzzy_query_mem h4

theorem find_matching_wine_mem {inv : List Wine} {n : String} {p : Option String}
    {v : Option Int} {w : Wine} (h : find_matching_wine inv n p v = some w) : w ∈ inv := by
  rw [find_matching_wine_eq_amended] at h
  exact findMatch_amended_mem h

theorem identified_match_mem {db : List Wine} {result : JObj} {w : Wine}
    (h : identified_match db result = some w) : w ∈ db := by
  unfold identified_match at h
  rcases hn : argName (pyGet result "name") with _ | n <;> rw [hn] at h
  · cases h
  · exact find_matching_wine_mem h

theorem find_id_of_nodup {l : List Wine} (hn : (l.map Wine.id).Nodup) {w : Wine}
    (hw : w ∈ l) : l.find? (fun x => x.id == w.id) = some w := by
  induction l with
  | nil => cases hw
  | cons a t ih =>
    cases hb : (a.id == w.id) with
    | true =>
      have haw : a = w :=
        List.inj_on_of_nodup_map hn (List.mem_cons_self a t) hw (beq_iff_eq.mp hb)
      simp only [List.find?, hb]
      rw [haw]
    | false =>
      have hwt : w ∈ t := by
        rcases List.mem_cons.mp hw with h | h
        · rw [h] at hb
          rw [beq_self_eq_true a.id] at hb
          cases hb
        · exact h
      simp only [List.find?, hb]
      exact ih (List.Nodup.of_cons hn) hwt

theorem find_id_map {f : Wine → Wine} (hf : ∀ x, (f x).id = x.id) (i : Int) :
    ∀ l : List Wine,
      (l.map f).find? (fun x => x.id == i) = (l.find? (fun x => x.id == i)).map f := by
  intro l
  induction l with
  | nil => rfl
  | cons a t ih =>
    have hfa : ((f a).id == i) = (a.id == i) := by rw [hf a]
    cases hb : (a.id == i) with
    | true => simp only [List.map_cons, List.find?, hfa, hb, Option.map_some']
    | false =>
      simp only [List.map_cons, List.find?, hfa, hb]
      exact ih

/-- C2: in the drink flow, a matched record with quantity at or below zero
is reported as "no bottles left" and the inventory is untouched, so the
flow is a no-op at exhaustion; otherwise the record's quantity is
decremented by exactly one, the response reports the previous and new
quantities with `new = previous - 1`, and only the matched record changes;
consequently the flow never drives a quantity below zero. -/
theorem C2_drink_no_bottles_or_decrement (db : List Wine) (result : JObj) (existing : Wine)
    (hids : (db.map Wine.id).Nodup)
    (herr : pyTruthy (pyGet result "error") = false)
    (hmatch : identified_match db result = some existing) :
    (existing.quantity ≤ 0 → drink_flow db result = (DrinkOutcome.noBottles existing, db)) ∧
    (0 < existing.quantity →
      drink_flow db result =
        (DrinkOutcome.drank ("Enjoyed a bottle of " ++ existing.name ++ "!")
          { existing with quantity := existing.quantity - 1 }
          existing.quantity (existing.quantity - 1),
         increment_wine_quantity db existing.id (-1))) ∧
    ((∀ w ∈ db, 0 ≤ w.quantity) → ∀ w' ∈ (drink_flow db result).2, 0 ≤ w'.quantity) := by
  have hmem : existing ∈ db := identified_match_mem hmatch
  have hfid : ∀ x : Wine,
      ((fun w => if w.id == existing.id then { w with quantity := w.quantity + (-1) } else w) x).id
        = x.id := by
    intro x
    dsimp only
    split <;> rfl
  have hup : get_wine (increment_wine_quantity db existing.id (-1)) existing.id
      = some { existing with quantity := existing.quantity + (-1) } := by
    unfold get_wine increment_wine_quantity
    rw [find_id_map hfid existing.id db, find_id_of_nodup hids hmem]
    simp
  have hbody : drink_flow db result =
      if existing.quantity ≤ 0 then (DrinkOutcome.noBottles existing, db)
      else
        (DrinkOutcome.drank ("Enjoyed a bottle of " ++ existing.name ++ "!")
          { existing with quantity := existing.quantity + (-1) }
          existing.quantity (existing.quantity + (-1)),
         increment_wine_quantity db existing.id (-1)) := by
    unfold drink_flow
    simp only [herr, hmatch, hup, Bool.false_eq_true, if_false]
  refine ⟨?_, ?_, ?_⟩
  · intro hle
    rw [hbody, if_pos hle]
  · intro hgt
    have hq : existing.quantity + (-1) = existing.quantity - 1 := by omega
    rw [hbody, if_neg (not_le.mpr hgt), hq]
  · intro hpos w' hw'
    by_cases hle : existing.quantity ≤ 0
    · rw [hbody, if_pos hle] at hw'
      exact hpos w' hw'
    · rw [hbody, if_neg hle] at hw'
      have hw'' : w' ∈ increment_wine_quantity db existing.id (-1) := hw'
      simp only [increment_wine_quantity, List.mem_map] at hw''
      rcases hw'' with ⟨w, hwdb, hw''⟩
      cases hid : (w.id == existing.id) with
      | true =>
        have hweq : w = existing :=
          List.inj_on_of_nodup_map hids hwdb hmem (beq_iff_eq.mp hid)
        rw [if_pos hid] at hw''
        rw [← hw'', hweq]
        show (0 : Int) ≤ existing.quantity + (-1)
        omega
      | false =>
        rw [if_neg (by simp [hid])] at hw''
        rw [← hw'']
        exact hpos w hwdb

/-- Witness for C2 on the spec's example: two bottles of the Barolo, one
successful identify-match, quantities 2 before and 1 after. -/
theorem C2_drink_witness :
    drink_flow [baroloWine]
        [("name", JValue.str "Barolo Riserva"), ("producer", JValue.str "Gaja"),
         ("vintage", JValue.int 2015)]
      = (DrinkOutcome.drank "Enjoyed a bottle of Barolo Riserva!"
          { baroloWine with quantity := 1 } 2 1,
         [{ baroloWine with quantity := 1 }]) :=
  (C2_drink_no_bottles_or_decrement [baroloWine]
      [("name", JValue.str "Barolo Riserva"), ("producer", JValue.str "Gaja"),
       ("vintage", JValue.int 2015)]
      baroloWine (by decide) rfl rfl).2.1 (by decide)

/-- C1 (counterexample): the claim's reading of `findMatch` — tiers gated
on the arguments being supplied, plain substring containment in tier 4,
and vintage-equality only against a supplied vintage — disagrees with the
source on three concrete inventories: a supplied zero vintage skips the
exact tiers, a `%` in the searched name acts as a SQL wildcard, and with
no vintage supplied the source still ranks vintage-0 records first. -/
theorem C1_counterexample :
    (findMatch_claim [cxR1, cxR2] "a" none (some 0) = some cxR1 ∧
      find_matching_wine [cxR1, cxR2] "a" none (some 0) = some cxR2 ∧ cxR1 ≠ cxR2) ∧
    (findMatch_claim [cxRx] "%" none none = none ∧
      find_matching_wine [cxRx] "%" none none = some cxRx) ∧
    (findMatch_claim [cxRA, cxRB] "wine" none none = some cxRB ∧
      find_matching_wine [cxRA, cxRB] "wine" none none = some cxRA ∧ cxRA ≠ cxRB) :=
  ⟨⟨rfl, rfl, fun h => absurd (congrArg Wine.id h) (by decide)⟩,
   ⟨rfl, rfl⟩,
   ⟨rfl, rfl, fun h => absurd (congrArg Wine.id h) (by decide)⟩⟩

theorem validate_nonerror (data : JObj) (h : data.lookup "error" = none) :
    validate_wine_data data =
      [("name", cleanName (pyGet data "name")),
       ("producer", cleanOptStr (pyGet data "producer")),
       ("country", cleanOptStr (pyGet data "country")),
       ("region", cleanOptStr (pyGet data "region")),
       ("appellation", cleanOptStr (pyGet data "appellation")),
       ("description", cleanOptStr (pyGet data "description")),
       ("style", cleanStyle (pyGet data "style")),
       ("vintage", cleanBoundedInt (pyGet data "vintage") 1800 2100),
       ("drinking_window_start", cleanBoundedInt (pyGet data "drinking_window_start") 1900 2200),
       ("drinking_window_end", cleanBoundedInt (pyGet data "drinking_window_end") 1900 2200),
       ("score", cleanBoundedInt (pyGet data "score") 0 100),
       ("alcohol_percentage", cleanFloat (pyGet data "alcohol_percentage")),
       ("grape_varieties", cleanStrList (pyGet data "grape_varieties")),
       ("tasting_notes", cleanNotes (pyGet data "tasting_notes")),
       ("needs_clarification", JValue.bool (pyTruthy (pyGet data "needs_clarification"))),
       ("clarification_questions", cleanStrList (pyGet data "clarification_questions"))] := by
  unfold validate_wine_data
  rw [h]
  rfl

theorem validate_get_vintage (data : JObj) (h : data.lookup "error" = none) :
    pyGet (validate_wine_data data) "vintage"
      = cleanBoundedInt (pyGet data "vintage") 1800 2100 := by
  rw [validate_nonerror data h]; rfl

theorem validate_get_dws (data : JObj) (h : data.lookup "error" = none) :
    pyGet (validate_wine_data data) "drinking_window_start"
      = cleanBoundedInt (pyGet data "drinking_window_start") 1900 2200 := by
  rw [validate_nonerror data h]; rfl

theorem validate_get_dwe (data : JObj) (h : data.lookup "error" = none) :
    pyGet (validate_wine_data data) "drinking_window_end"
      = cleanBoundedInt (pyGet data "drinking_window_end") 1900 2200 := by
  rw [validate_nonerror data h]; rfl

theorem validate_get_score (data : JObj) (h : data.lookup "error" = none) :
    pyGet (validate_wine_data data) "score"
      = cleanBoundedInt (pyGet data "score") 0 100 := by
  rw [validate_nonerror data h]; rfl

theorem validate_get_alcohol (data : JObj) (h : data.lookup "error" = none) :
    pyGet (validate_wine_data data) "alcohol_percentage"
      = cleanFloat (pyGet data "alcohol_percentage") := by
  rw [validate_nonerror data h]; rfl

theorem validate_get_style (data : JObj) (h : data.lookup "error" = none) :
    pyGet (validate_wine_data data) "style"
      = cleanStyle (pyGet data "style") := by
  rw [validate_nonerror data h]; rfl

theorem cleanBoundedInt_of_some {v : JValue} {n : Int} (lo hi : Int)
    (hv : pyInt v = some n) :
    cleanBoundedInt v lo hi = if lo ≤ n ∧ n ≤ hi then JValue.int n else JValue.null := by
  cases v
  case null => simp [pyInt] at hv
  all_goals simp only [cleanBoundedInt]; rw [hv]

theorem cleanBoundedInt_of_none {v : JValue} (lo hi : Int) (hv : pyInt v = none) :
    cleanBoundedInt v lo hi = JValue.null := by
  cases v
  case null => rfl
  all_goals simp only [cleanBoundedInt]; rw [hv]

theorem cleanFloat_of_some {v : JValue} {q : Rat} (hv : pyFloat v = some q) :
    cleanFloat v = if 0 ≤ q ∧ q ≤ 100 then JValue.float q else JValue.null := by
  cases v
  case null => simp [pyFloat] at hv
  all_goals simp only [cleanFloat]; rw [hv]

theorem cleanFloat_of_none {v : JValue} (hv : pyFloat v = none) :
    cleanFloat v = JValue.null := by
  cases v
  case null => rfl
  all_goals simp only [cleanFloat]; rw [hv]

theorem cleanBoundedInt_ok (v : JValue) (lo hi : Int) :
    intFieldOk (cleanBoundedInt v lo hi) lo hi := by
  cases hv : pyInt v with
  | none =>
    rw [cleanBoundedInt_of_none lo hi hv]
    exact Or.inl rfl
  | some n =>
    rw [cleanBoundedInt_of_some lo hi hv]
    by_cases hb : lo ≤ n ∧ n ≤ hi
    · rw [if_pos hb]; exact Or.inr ⟨n, rfl, hb.1, hb.2⟩
    · rw [if_neg hb]; exact Or.inl rfl

theorem cleanFloat_ok (v : JValue) : floatFieldOk (cleanFloat v) := by
  cases hv : pyFloat v with
  | none =>
    rw [cleanFloat_of_none hv]
    exact Or.inl rfl
  | some q =>
    rw [cleanFloat_of_some hv]
    by_cases hb : 0 ≤ q ∧ q ≤ 100
    · rw [if_pos hb]; exact Or.inr ⟨q, rfl, hb.1, hb.2⟩
    · rw [if_neg hb]; exact Or.inl rfl

theorem cleanStyle_ok (v : JValue) : styleFieldOk (cleanStyle v) := by
  cases v
  case str s =>
    simp only [cleanStyle]
    by_cases hc : validStyles.contains s = true
    · rw [if_pos hc]; exact Or.inr ⟨s, rfl, List.elem_iff.mp hc⟩
    · rw [if_neg hc]; exact Or.inl rfl
  all_goals exact Or.inl rfl

/-- C5: for every non-error extraction result, a vintage value that Python
coerces to an integer inside `[1800, 2100]` validates to that integer,
while an out-of-range or non-coercible value — and an absent or null
vintage — validates to null. -/
theorem C5_vintage_validation (data : JObj) (h : data.lookup "error" = none) :
    (pyGet data "vintage" = JValue.null →
        pyGet (validate_wine_data data) "vintage" = JValue.null) ∧
    (∀ n : Int, pyInt (pyGet data "vintage") = some n →
        ((1800 ≤ n ∧ n ≤ 2100) →
            pyGet (validate_wine_data data) "vintage" = JValue.int n) ∧
        (¬ (1800 ≤ n ∧ n ≤ 2100) →
            pyGet (validate_wine_data data) "vintage" = JValue.null)) ∧
    (pyInt (pyGet data "vintage") = none →
        pyGet (validate_wine_data data) "vintage" = JValue.null) := by
  rw [validate_get_vintage data h]
  refine ⟨?_, ?_, ?_⟩
  · intro hv; rw [hv]; rfl
  · intro n hn
    rw [cleanBoundedInt_of_some 1800 2100 hn]
    constructor
    · intro hb; rw [if_pos hb]
    · intro hb; rw [if_neg hb]
  · intro hv; exact cleanBoundedInt_of_none 1800 2100 hv

/-- Witness for C5: `"unknown"` and 1650 validate to null, 2015 is kept. -/
theorem C5_witness :
    pyGet (validate_wine_data [("vintage", JValue.str "unknown")]) "vintage" = JValue.null ∧
    pyGet (validate_wine_data [("vintage", JValue.int 1650)]) "vintage" = JValue.null ∧
    pyGet (validate_wine_data [("vintage", JValue.int 2015)]) "vintage" = JValue.int 2015 :=
  ⟨(C5_vintage_validation [("vintage", JValue.str "unknown")] rfl).2.2 rfl,
   ((C5_vintage_validation [("vintage", JValue.int 1650)] rfl).2.1 1650 rfl).2 (by omega),
   ((C5_vintage_validation [("vintage", JValue.int 2015)] rfl).2.1 2015 rfl).1 (by omega)⟩

/-- C6: for every non-error extraction result, a style equal to one of the
six enumerated values is kept, and any other value — another string, a
non-string, null or absence — validates to null. -/
theorem C6_style_validation (data : JObj) (h : data.lookup "error" = none) :
    (∀ s : String, pyGet data "style" = JValue.str s →
        (s ∈ validStyles → pyGet (validate_wine_data data) "style" = JValue.str s) ∧
        (s ∉ validStyles → pyGet (validate_wine_data data) "style" = JValue.null)) ∧
    ((∀ s : String, pyGet data "style" ≠ JValue.str s) →
        pyGet (validate_wine_data data) "style" = JValue.null) := by
  rw [validate_get_style data h]
  constructor
  · intro s hs
    rw [hs]
    simp only [cleanStyle]
    constructor
    · intro hmem
      rw [if_pos (List.elem_iff.mpr hmem)]
    · intro hmem
      rw [if_neg (fun hc => hmem (List.elem_iff.mp hc))]
  · intro hns
    cases hv : pyGet data "style" with
    | str s => exact absurd hv (hns s)
    | null => rfl
    | bool b => rfl
    | int n => rfl
    | float q => rfl
    | list xs => rfl
    | obj xs => rfl

/-- Witness for C6: "Orange" collapses to null, "Rosé" is kept. -/
theorem C6_witness :
    pyGet (validate_wine_data [("style", JValue.str "Orange")]) "style" = JValue.null ∧
    pyGet (validate_wine_data [("style", JValue.str "Rosé")]) "style" = JValue.str "Rosé" :=
  ⟨((C6_style_validation [("style", JValue.str "Orange")] rfl).1 "Orange" rfl).2 (by decide),
   ((C6_style_validation [("style", JValue.str "Rosé")] rfl).1 "Rosé" rfl).1 (by decide)⟩

/-- C7: a raw mapping that carries an `error` key passes through
`validate_wine_data` entirely unchanged, with no field normalization. -/
theorem C7_error_passthrough (data : JObj) (v : JValue)
    (h : data.lookup "error" = some v) :
    validate_wine_data data = data := by
  unfold validate_wine_data
  rw [h]
  rfl

/-- Witness for C7 at `{"error": "Not a wine label image"}`. -/
theorem C7_witness :
    validate_wine_data notLabelRaw = notLabelRaw :=
  C7_error_passthrough notLabelRaw (JValue.str "Not a wine label image") rfl

/-- C10: for every non-error raw input, the validated output's keys are
exactly the fixed 16-field record shape, in the source's insertion order:
every extra key of the raw oracle output is discarded, and every expected
key is present even when absent from the input. -/
theorem C10_fixed_shape (data : JObj) (h : data.lookup "error" = none) :
    (validate_wine_data data).map Prod.fst =
      ["name", "producer", "country", "region", "appellation", "description",
       "style", "vintage", "drinking_window_start", "drinking_window_end",
       "score", "alcohol_percentage", "grape_varieties", "tasting_notes",
       "needs_clarification", "clarification_questions"] := by
  rw [validate_nonerror data h]
  rfl

/-- Witness for C10: an input with only an unexpected key still produces
the full 16-key shape. -/
theorem C10_witness :
    (validate_wine_data [("bottle_shape", JValue.str "burgundy")]).map Prod.fst =
      ["name", "producer", "country", "region", "appellation", "description",
       "style", "vintage", "drinking_window_start", "drinking_window_end",
       "score", "alcohol_percentage", "grape_varieties", "tasting_notes",
       "needs_clarification", "clarification_questions"] :=
  C10_fixed_shape [("bottle_shape", JValue.str "burgundy")] rfl

/-- C3 (amended): every record produced by the extraction pipeline's
validation step satisfies the invariants — each bounded numeric field is
null or within its stated range and the style is null or one of the six
enumerated values — so no raw unchecked oracle value reaches storage
through the pipeline. Direct creation and direct update, by contrast,
persist caller-supplied fields verbatim (see the counterexample). -/
theorem C3_pipeline_invariants (data : JObj) (h : data.lookup "error" = none) :
    intFieldOk (pyGet (validate_wine_data data) "vintage") 1800 2100 ∧
    intFieldOk (pyGet (validate_wine_data data) "drinking_window_start") 1900 2200 ∧
    intFieldOk (pyGet (validate_wine_data data) "drinking_window_end") 1900 2200 ∧
    intFieldOk (pyGet (validate_wine_data data) "score") 0 100 ∧
    floatFieldOk (pyGet (validate_wine_data data) "alcohol_percentage") ∧
    styleFieldOk (pyGet (validate_wine_data data) "style") := by
  rw [validate_get_vintage data h, validate_get_dws data h, validate_get_dwe data h,
      validate_get_score data h, validate_get_alcohol data h, validate_get_style data h]
  exact ⟨cleanBoundedInt_ok _ _ _, cleanBoundedInt_ok _ _ _, cleanBoundedInt_ok _ _ _,
         cleanBoundedInt_ok _ _ _, cleanFloat_ok _, cleanStyle_ok _⟩

/-- Witness for C3 on a result full of out-of-range junk. -/
theorem C3_witness :
    intFieldOk (pyGet (validate_wine_data
        [("vintage", JValue.int 1650), ("style", JValue.str "Orange"),
         ("score", JValue.int 150)]) "vintage") 1800 2100 ∧
    intFieldOk (pyGet (validate_wine_data
        [("vintage", JValue.int 1650), ("style", JValue.str "Orange"),
         ("score", JValue.int 150)]) "drinking_window_start") 1900 2200 ∧
    intFieldOk (pyGet (validate_wine_data
        [("vintage", JValue.int 1650), ("style", JValue.str "Orange"),
         ("score", JValue.int 150)]) "drinking_window_end") 1900 2200 ∧
    intFieldOk (pyGet (validate_wine_data
        [("vintage", JValue.int 1650), ("style", JValue.str "Orange"),
         ("score", JValue.int 150)]) "score") 0 100 ∧
    floatFieldOk (pyGet (validate_wine_data
        [("vintage", JValue.int 1650), ("style", JValue.str "Orange"),
         ("score", JValue.int 150)]) "alcohol_percentage") ∧
    styleFieldOk (pyGet (validate_wine_data
        [("vintage", JValue.int 1650), ("style", JValue.str "Orange"),
         ("score", JValue.int 150)]) "style") :=
  C3_pipeline_invariants
    [("vintage", JValue.int 1650), ("style", JValue.str "Orange"),
     ("score", JValue.int 150)] rfl

/-- C3 (counterexample): the claim extends the invariant to records
reachable through direct creation, but `POST /api/wines` inserts the
caller's fields verbatim — a payload with style "Orange" and vintage 99999
is stored unchanged, violating both the style enumeration and the vintage
bound. -/
theorem C3_counterexample :
    api_create_wine [] 1 0 badPayload = some [badStored] ∧
    badStored.style = some "Orange" ∧ ¬ styleColOk badStored.style ∧
    badStored.vintage = some 99999 ∧ ¬ intColOk badStored.vintage 1800 2100 := by
  refine ⟨rfl, rfl, ?_, rfl, ?_⟩
  · rintro (hno | ⟨s, hs, hmem⟩)
    · exact Option.noConfusion hno
    · have hs' : some "Orange" = some s := hs
      injection hs' with h'
      rw [← h'] at hmem
      exact absurd hmem (by decide)
  · rintro (hno | ⟨n, hn, h1, h2⟩)
    · exact Option.noConfusion hno
    · have hn' : some (99999 : Int) = some n := hn
      injection hn' with h'
      rw [← h'] at h2
      exact absurd h2 (by decide)

theorem jset_lookup_self (o : JObj) (k : String) (v : JValue) :
    (jset o k v).lookup k = some v := by
  induction o with
  | nil => simp [jset, List.lookup]
  | cons kv rest ih =>
    rcases kv with ⟨k', v'⟩
    by_cases hk : k' = k
    · simp [jset, hk, List.lookup]
    · have hkk : (k == k') = false := beq_eq_false_iff_ne.mpr (fun hcon => hk hcon.symm)
      simp only [jset, if_neg hk, List.lookup, hkk]
      exact ih

theorem jset_lookup_ne (o : JObj) (k k' : String) (v : JValue) (hne : k' ≠ k) :
    (jset o k v).lookup k' = o.lookup k' := by
  have hkk : (k' == k) = false := beq_eq_false_iff_ne.mpr hne
  induction o with
  | nil => simp [jset, List.lookup, hkk]
  | cons kv rest ih =>
    rcases kv with ⟨a, b⟩
    by_cases ha : a = k
    · simp only [jset, if_pos ha, List.lookup, ha, hkk]
    · simp only [jset, if_neg ha, List.lookup]
      cases hak : (k' == a) with
      | true => rfl
      | false => exact ih

theorem attachImage_lookup_image {c : JObj} {u : String} {cid : Option String}
    (hu : u ≠ "") :
    (attachImage c (some u) cid).lookup "image_path" = some (JValue.str u) := by
  simp only [attachImage]
  rw [if_neg hu]
  cases cid with
  | none => exact jset_lookup_self c "image_path" (JValue.str u)
  | some cs =>
    show (if cs = "" then jset c "image_path" (JValue.str u)
          else jset (jset c "image_path" (JValue.str u)) "cloudinary_id"
            (JValue.str cs)).lookup "image_path" = some (JValue.str u)
    by_cases hcs : cs = ""
    · rw [if_pos hcs]
      exact jset_lookup_self c "image_path" (JValue.str u)
    · rw [if_neg hcs]
      rw [jset_lookup_ne _ "cloudinary_id" "image_path" _ (by decide)]
      exact jset_lookup_self c "image_path" (JValue.str u)

theorem analyze_flow_eq (db : List Wine) (store : List (String × Bytes)) (content : Bytes)
    (filename fresh : String) (raw : JObj) :
    analyze_flow db store content filename fresh raw =
      (if matchGate (analyzePre store content filename fresh raw) then
        match identified_match db (analyzePre store content filename fresh raw) with
        | some w =>
            (jset (jset (analyzePre store content filename fresh raw) "existing_wine" (wineToJ w))
              "is_duplicate" (JValue.bool true),
             (save_uploaded_file store content filename fresh).1)
        | none => (analyzePre store content filename fresh raw,
                   (save_uploaded_file store content filename fresh).1)
       else (analyzePre store content filename fresh raw,
             (save_uploaded_file store content filename fresh).1)) := rfl

theorem analyze_flow_snd (db : List Wine) (store : List (String × Bytes)) (content : Bytes)
    (filename fresh : String) (raw : JObj) :
    (analyze_flow db store content filename fresh raw).2
      = (save_uploaded_file store content filename fresh).1 := by
  rw [analyze_flow_eq]
  by_cases hg : matchGate (analyzePre store content filename fresh raw) = true
  · rw [if_pos hg]
    cases hm : identified_match db (analyzePre store content filename fresh raw) with
    | none => rfl
    | some w => rfl
  · rw [if_neg hg]

theorem analyze_flow_lookup_image (db : List Wine) (store : List (String × Bytes))
    (content : Bytes) (filename fresh : String) (raw : JObj) (u : String)
    (hsu : (save_uploaded_file store content filename fresh).2.1 = some u) (hu : u ≠ "") :
    ((analyze_flow db store content filename fresh raw).1).lookup "image_path"
      = some (JValue.str u) := by
  have hpre : (analyzePre store content filename fresh raw).lookup "image_path"
      = some (JValue.str u) := by
    unfold analyzePre
    rw [hsu]
    exact attachImage_lookup_image hu
  rw [analyze_flow_eq]
  by_cases hg : matchGate (analyzePre store content filename fresh raw) = true
  · rw [if_pos hg]
    cases hm : identified_match db (analyzePre store content filename fresh raw) with
    | none => exact hpre
    | some w =>
      show (jset (jset (analyzePre store content filename fresh raw) "existing_wine" (wineToJ w))
          "is_duplicate" (JValue.bool true)).lookup "image_path" = some (JValue.str u)
      rw [jset_lookup_ne _ "is_duplicate" "image_path" _ (by decide),
          jset_lookup_ne _ "existing_wine" "image_path" _ (by decide)]
      exact hpre
  · rw [if_neg hg]
    exact hpre

/-- C4 (amended): in the analyze flow, duplicate matching is attempted
exactly when the validated result carries neither a truthy `error` value
nor a truthy `needs_clarification` value; when the matcher returns an
existing record the result is annotated with `is_duplicate: true` and
`existing_wine` equal to the stored record (no merge, no rejection); and
the image is saved with its reference attached to the result regardless of
the duplicate outcome. -/
theorem C4_duplicate_detection (db : List Wine) (store : List (String × Bytes))
    (content : Bytes) (filename fresh : String) (raw : JObj) :
    (analyze_flow db store content filename fresh raw).2
        = (save_uploaded_file store content filename fresh).1 ∧
    (matchGate (analyzePre store content filename fresh raw) = false →
      (analyze_flow db store content filename fresh raw).1
        = analyzePre store content filename fresh raw) ∧
    (matchGate (analyzePre store content filename fresh raw) = true →
      identified_match db (analyzePre store content filename fresh raw) = none →
      (analyze_flow db store content filename fresh raw).1
        = analyzePre store content filename fresh raw) ∧
    (∀ w : Wine, matchGate (analyzePre store content filename fresh raw) = true →
      identified_match db (analyzePre store content filename fresh raw) = some w →
      (analyze_flow db store content filename fresh raw).1
        = jset (jset (analyzePre store content filename fresh raw) "existing_wine" (wineToJ w))
            "is_duplicate" (JValue.bool true) ∧
      ((analyze_flow db store content filename fresh raw).1).lookup "existing_wine"
        = some (wineToJ w) ∧
      ((analyze_flow db store content filename fresh raw).1).lookup "is_duplicate"
        = some (JValue.bool true)) ∧
    (∀ u : String, (save_uploaded_file store content filename fresh).2.1 = some u → u ≠ "" →
      ((analyze_flow db store content filename fresh raw).1).lookup "image_path"
        = some (JValue.str u)) := by
  refine ⟨analyze_flow_snd db store content filename fresh raw, ?_, ?_, ?_, ?_⟩
  · intro hg
    rw [analyze_flow_eq, if_neg (by simp [hg])]
  · intro hg hm
    rw [analyze_flow_eq, if_pos hg, hm]
  · intro w hg hm
    have hout : (analyze_flow db store content filename fresh raw).1
        = jset (jset (analyzePre store content filename fresh raw) "existing_wine" (wineToJ w))
            "is_duplicate" (JValue.bool true) := by
      rw [analyze_flow_eq, if_pos hg, hm]
    refine ⟨hout, ?_, ?_⟩
    · rw [hout]
      rw [jset_lookup_ne _ "is_duplicate" "existing_wine" _ (by decide)]
      exact jset_lookup_self _ "existing_wine" (wineToJ w)
    · rw [hout]
      exact jset_lookup_self _ "is_duplicate" (JValue.bool true)
  · intro u hsu hu
    exact analyze_flow_lookup_image db store content filename fresh raw u hsu hu

/-- Witness for C4 on the spec's duplicate-detection example: the analyzed
Barolo is flagged as a duplicate of the stored record and the uploaded
image is persisted and referenced. -/
theorem C4_witness :
    ((analyze_flow [baroloWine] [] [1] "label.jpg" "u1" dupRaw).1).lookup "is_duplicate"
        = some (JValue.bool true) ∧
    ((analyze_flow [baroloWine] [] [1] "label.jpg" "u1" dupRaw).1).lookup "existing_wine"
        = some (wineToJ baroloWine) ∧
    ((analyze_flow [baroloWine] [] [1] "label.jpg" "u1" dupRaw).1).lookup "image_path"
        = some (JValue.str "uploads/u1.jpg") ∧
    (analyze_flow [baroloWine] [] [1] "label.jpg" "u1" dupRaw).2 = [("u1.jpg", [1])] :=
  ⟨((C4_duplicate_detection [baroloWine] [] [1] "label.jpg" "u1" dupRaw).2.2.2.1
      baroloWine rfl rfl).2.2,
   ((C4_duplicate_detection [baroloWine] [] [1] "label.jpg" "u1" dupRaw).2.2.2.1
      baroloWine rfl rfl).2.1,
   (C4_duplicate_detection [baroloWine] [] [1] "label.jpg" "u1" dupRaw).2.2.2.2
      "uploads/u1.jpg" rfl (by decide),
   (C4_duplicate_detection [baroloWine] [] [1] "label.jpg" "u1" dupRaw).1⟩

/-- C4 (counterexample): a validated result that carries an `error` key
(with a falsy empty value) still gets duplicate-matched and annotated —
the gate tests Python truthiness of the value, not the presence of the
error indicator, so the claim's "carries an error indicator" reading fails
on `{"error": "", "name": "Barolo"}` against the example inventory. -/
theorem C4_counterexample :
    pyGet errEmptyRaw "error" = JValue.str "" ∧
    validate_wine_data errEmptyRaw = errEmptyRaw ∧
    ((analyze_flow [baroloWine] [] [1] "label.jpg" "u1" errEmptyRaw).1).lookup "is_duplicate"
        = some (JValue.bool true) ∧
    ((analyze_flow [baroloWine] [] [1] "label.jpg" "u1" errEmptyRaw).1).lookup "existing_wine"
        = some (wineToJ baroloWine) :=
  ⟨rfl, rfl, rfl, rfl⟩

/-- C9: in the analyze flow the uploaded image is saved and its reference
attached to the returned payload unconditionally — for every oracle
result, error or clarification included — provided only that the upload
itself is non-empty with an allowed extension. -/
theorem C9_image_persisted (db : List Wine) (store : List (String × Bytes))
    (content : Bytes) (filename fresh : String) (raw : JObj)
    (hc : content ≠ []) (hf : allowed_file filename = true) :
    (analyze_flow db store content filename fresh raw).2
        = store ++ [(fresh ++ "." ++ extOf filename, content)] ∧
    ((analyze_flow db store content filename fresh raw).1).lookup "image_path"
        = some (JValue.str ("uploads/" ++ (fresh ++ "." ++ extOf filename))) := by
  have hfne : filename ≠ "" := by
    intro hcon
    rw [hcon] at hf
    exact absurd hf (by decide)
  have hsave : save_uploaded_file store content filename fresh =
      (store ++ [(fresh ++ "." ++ extOf filename, content)],
       some ("uploads/" ++ (fresh ++ "." ++ extOf filename)), none) := by
    have h1 : (content.isEmpty || (filename == "")) = false := by
      cases content with
      | nil => exact absurd rfl hc
      | cons a t =>
        rw [beq_eq_false_iff_ne.mpr hfne]
        rfl
    unfold save_uploaded_file
    rw [h1, hf]
    rfl
  have hu : ("uploads/" ++ (fresh ++ "." ++ extOf filename)) ≠ "" := by
    intro hcon
    have h2 := congrArg String.length hcon
    rw [String.length_append] at h2
    have h3 : "uploads/".length = 8 := rfl
    have h4 : "".length = 0 := rfl
    rw [h3, h4] at h2
    omega
  constructor
  · rw [analyze_flow_snd, hsave]
  · exact analyze_flow_lookup_image db store content filename fresh raw _
      (by rw [hsave]) hu

/-- Witness for C9: a "not a wine label" error result still persists the
image and carries its reference. -/
theorem C9_witness :
    (analyze_flow [baroloWine] [] [1] "label.jpg" "u1" notLabelRaw).2
        = [("u1.jpg", [1])] ∧
    ((analyze_flow [baroloWine] [] [1] "label.jpg" "u1" notLabelRaw).1).lookup "image_path"
        = some (JValue.str "uploads/u1.jpg") :=
  ⟨(C9_image_persisted [baroloWine] [] [1] "label.jpg" "u1" notLabelRaw
      (by decide) rfl).1,
   (C9_image_persisted [baroloWine] [] [1] "label.jpg" "u1" notLabelRaw
      (by decide) rfl).2⟩

theorem splitNL_ne_nil (l : List Char) : splitNL l ≠ [] := by
  cases l with
  | nil => simp [splitNL]
  | cons c rest =>
    by_cases hc : c = '\n'
    · simp [splitNL, hc]
    · simp only [splitNL, if_neg hc]
      cases h : splitNL rest with
      | nil => simp
      | cons a as => simp

theorem splitNL_cons_nl (xs : List Char) :
    splitNL ('\n' :: xs) = [] :: splitNL xs := rfl

theorem splitNL_cons_ne {c : Char} (hc : c ≠ '\n') {xs a : List Char}
    {as : List (List Char)} (ha : splitNL xs = a :: as) :
    splitNL (c :: xs) = (c :: a) :: as := by
  simp only [splitNL, if_neg hc, ha]

theorem splitNL_append (x y : List Char) :
    splitNL (x ++ '\n' :: y) = splitNL x ++ splitNL y := by
  induction x with
  | nil => simp [splitNL]
  | cons c rest ih =>
    obtain ⟨a, as, ha⟩ : ∃ a as, splitNL rest = a :: as := by
      cases h : splitNL rest with
      | nil => exact absurd h (splitNL_ne_nil rest)
      | cons a as => exact ⟨a, as, rfl⟩
    by_cases hc : c = '\n'
    · subst hc
      show splitNL ('\n' :: (rest ++ '\n' :: y)) = splitNL ('\n' :: rest) ++ splitNL y
      rw [splitNL_cons_nl, splitNL_cons_nl, ih]
      rfl
    · have ha2 : splitNL (rest ++ '\n' :: y) = a :: (as ++ splitNL y) := by
        rw [ih, ha]
        rfl
      show splitNL (c :: (rest ++ '\n' :: y)) = splitNL (c :: rest) ++ splitNL y
      rw [splitNL_cons_ne hc ha2, splitNL_cons_ne hc ha]
      rfl

theorem splitNL_no_nl {a : List Char} (h : '\n' ∉ a) : splitNL a = [a] := by
  induction a with
  | nil => rfl
  | cons c rest ih =>
    have hc : c ≠ '\n' := fun hcon => h (by rw [hcon]; exact List.mem_cons_self _ _)
    have hrest : '\n' ∉ rest := fun hcon => h (List.mem_cons_of_mem _ hcon)
    exact splitNL_cons_ne hc (ih hrest)

theorem joinNL_splitNL (j : List Char) : joinNL (splitNL j) = j := by
  induction j with
  | nil => rfl
  | cons c rest ih =>
    obtain ⟨a, as, ha⟩ : ∃ a as, splitNL rest = a :: as := by
      cases h : splitNL rest with
      | nil => exact absurd h (splitNL_ne_nil rest)
      | cons a as => exact ⟨a, as, rfl⟩
    by_cases hc : c = '\n'
    · subst hc
      rw [splitNL_cons_nl, ha]
      show [] ++ '\n' :: joinNL (a :: as) = '\n' :: rest
      rw [← ha, ih]
      rfl
    · rw [splitNL_cons_ne hc ha]
      cases as with
      | nil =>
        have ha2 : a = rest := by
          rw [ha] at ih
          exact ih
        show c :: a = c :: rest
        rw [ha2]
      | cons b bs =>
        have hrest : joinNL (a :: b :: bs) = rest := by
          rw [← ha]
          exact ih
        show (c :: a) ++ '\n' :: joinNL (b :: bs) = c :: rest
        rw [← hrest]
        rfl

theorem fence_isPrefixOf_append (tag : List Char) :
    startsFence (fenceMarker ++ tag) = true := by
  unfold startsFence
  rw [List.isPrefixOf_iff_prefix]
  exact List.prefix_append _ _

theorem collectFenced_body (ls : List (List Char))
    (hls : ∀ l ∈ ls, startsFence l = false) :
    collectFenced (ls ++ [fenceMarker]) true = ls := by
  induction ls with
  | nil => rfl
  | cons a as ih =>
    have ha : startsFence a = false := hls a (List.mem_cons_self _ _)
    have has : ∀ l ∈ as, startsFence l = false :=
      fun l hl => hls l (List.mem_cons_of_mem _ hl)
    show collectFenced (a :: (as ++ [fenceMarker])) true = a :: as
    rw [show collectFenced (a :: (as ++ [fenceMarker])) true
          = if startsFence a = true then []
            else a :: collectFenced (as ++ [fenceMarker]) true from rfl]
    rw [if_neg (by simp [ha]), ih has]

/-- C8: the extraction client's fence-stripping step returns the body of a
fenced code block verbatim — a leading fence line with an optional
language tag, a body none of whose lines starts with a fence (true of
every JSON object text, where a backtick can neither open a line nor
follow a raw newline inside a string accepted by the parser), and a
trailing fence line — so the wrapped response parses to the same value as
the body parsed directly; an unwrapped response is left as it is. -/
theorem C8_fence_stripping :
    (∀ tag j : List Char, '\n' ∉ tag →
        (∀ l ∈ splitNL j, startsFence l = false) →
        stripFences ((fenceMarker ++ tag) ++ ('\n' :: (j ++ ('\n' :: fenceMarker)))) = j) ∧
    (∀ s : List Char, startsFence s = false → stripFences s = s) := by
  constructor
  · intro tag j htag hlines
    have hnl : '\n' ∉ fenceMarker ++ tag := by
      intro hcon
      rcases List.mem_append.mp hcon with h | h
      · exact absurd h (by decide)
      · exact htag h
    have hstart : startsFence ((fenceMarker ++ tag) ++ ('\n' :: (j ++ ('\n' :: fenceMarker))))
        = true := by
      rw [List.append_assoc]
      exact fence_isPrefixOf_append _
    unfold stripFences
    rw [if_pos hstart]
    rw [splitNL_append (fenceMarker ++ tag) (j ++ ('\n' :: fenceMarker))]
    rw [splitNL_append j fenceMarker]
    rw [splitNL_no_nl hnl]
    rw [splitNL_no_nl (show '\n' ∉ fenceMarker by decide)]
    show joinNL (collectFenced ((fenceMarker ++ tag) :: (splitNL j ++ [fenceMarker])) false) = j
    simp only [collectFenced]
    rw [if_pos (fence_isPrefixOf_append tag), collectFenced_body (splitNL j) hlines]
    exact joinNL_splitNL j
  · intro s hs
    unfold stripFences
    rw [if_neg (by simp [hs])]

/-- Witness for C8: a concrete fenced JSON body round-trips, and an
unwrapped body is parsed as it is. -/
theorem C8_witness :
    stripFences ((fenceMarker ++ "json".data) ++ ('\n' :: ("[1, 2]".data ++ ('\n' :: fenceMarker))))
        = "[1, 2]".data ∧
    stripFences "[1, 2]".data = "[1, 2]".data :=
  ⟨C8_fence_stripping.1 "json".data "[1, 2]".data (by decide) (by decide),
   C8_fence_stripping.2 "[1, 2]".data (by decide)⟩

end WineCellar
